/-
Verification of the asynchronous job-execution engine of the `api-base`
repository (src/app/jobs/manager.py, src/app/jobs/registry.py,
src/app/jobs/handlers.py, src/app/core/worker.py,
src/app/api/v1/endpoints/jobs.py) against its specification.

Python dictionaries (insertion-ordered, unique keys) are embedded as
association lists over `String` keys; `datetime.now()` values are embedded
as explicit `Int` time parameters threaded into every operation that reads
the clock; `Any`-typed payload/result data is a type parameter `α`.
-/
import Mathlib

/-! ## Ordered-dictionary model (Python `dict`) -/

/-- Lookup in an insertion-ordered dictionary (`d.get(k)` / `d[k]`). -/
def dlookup {β : Type} : List (String × β) → String → Option β
  | [], _ => none
  | (a, b) :: t, k => if a = k then some b else dlookup t k

/-- Assignment `d[k] = v`: replaces the first binding of `k` in place,
or appends a new binding at the end, exactly as a Python dict does. -/
def dinsert {β : Type} : List (String × β) → String → β → List (String × β)
  | [], k, v => [(k, v)]
  | (a, b) :: t, k, v => if a = k then (k, v) :: t else (a, b) :: dinsert t k v

/-- Deletion `del d[k]`: removes the first binding of `k`. -/
def ddelete {β : Type} : List (String × β) → String → List (String × β)
  | [], _ => []
  | (a, b) :: t, k => if a = k then t else (a, b) :: ddelete t k

/-! ## Data model (src/app/jobs/manager.py, src/app/jobs/schemas.py) -/

/-- `JobStatus` enum from src/app/jobs/schemas.py. -/
inductive JobStatus where
  | PENDING
  | RUNNING
  | COMPLETED
  | FAILED
deriving DecidableEq

/-- `IntermediateResult` schema: a `(timestamp, data)` pair. -/
structure IntermediateResult (α : Type) where
  timestamp : Int
  data : α
deriving DecidableEq

/-- Internal job representation, `Job` in src/app/jobs/manager.py. -/
structure Job (α : Type) where
  id : String
  type : String
  payload : α
  status : JobStatus
  created_at : Int
  started_at : Option Int
  completed_at : Option Int
  intermediate_results : List (IntermediateResult α)
  final_result : Option α
  error : Option String
deriving DecidableEq

/-- `Job.__init__`: a fresh job starts `PENDING` with all result fields empty. -/
def Job.init {α : Type} (job_id job_type : String) (payload : α) (now : Int) : Job α :=
  { id := job_id
    type := job_type
    payload := payload
    status := JobStatus.PENDING
    created_at := now
    started_at := none
    completed_at := none
    intermediate_results := []
    final_result := none
    error := none }

/-- Mutable state of a `JobManager`: the `_jobs` dict and the `_queue`
(an `asyncio.Queue` of job ids, FIFO). -/
structure JobManagerState (α : Type) where
  jobs : List (String × Job α)
  queue : List String
deriving DecidableEq

/-- `JobManager.__init__`: empty store, empty queue. -/
def JobManagerState.initial {α : Type} : JobManagerState α := { jobs := [], queue := [] }

/-- `JobManager.submit_job` (src/app/jobs/manager.py lines 64-84): creates a
job under a freshly generated id (`create_id()`, modelled as the explicit
`job_id` argument), stores it, then enqueues the id, and returns the id. -/
def submit_job {α : Type} (s : JobManagerState α) (job_type : String) (payload : α)
    (job_id : String) (now : Int) : JobManagerState α × String :=
  let job := Job.init job_id job_type payload now
  ({ jobs := dinsert s.jobs job_id job, queue := s.queue ++ [job_id] }, job_id)

/-- `JobManager.get_job`: `self._jobs.get(job_id, None)`. -/
def get_job {α : Type} (s : JobManagerState α) (job_id : String) : Option (Job α) :=
  dlookup s.jobs job_id

/-- The job mutation performed by `update_job_status` on a found job:
unconditionally assign the new status; stamp `started_at` on `RUNNING` when
it is still unset (`not job.started_at`; a `datetime` is always truthy, so
the guard is exactly `started_at is None`); stamp `completed_at` on every
`COMPLETED` or `FAILED` assignment. -/
def apply_status {α : Type} (job : Job α) (status : JobStatus) (now : Int) : Job α :=
  if status = JobStatus.RUNNING ∧ job.started_at = none then
    { job with status := status, started_at := some now }
  else if status = JobStatus.COMPLETED ∨ status = JobStatus.FAILED then
    { job with status := status, completed_at := some now }
  else { job with status := status }

/-- `JobManager.update_job_status` (src/app/jobs/manager.py lines 117-133):
apply `apply_status` to the stored job; no-op when the id is unknown. -/
def update_job_status {α : Type} (s : JobManagerState α) (job_id : String)
    (status : JobStatus) (now : Int) : JobManagerState α :=
  match dlookup s.jobs job_id with
  | none => s
  | some job => { s with jobs := dinsert s.jobs job_id (apply_status job status now) }

/-- `JobManager.set_job_result`: sets `final_result`; no-op when unknown. -/
def set_job_result {α : Type} (s : JobManagerState α) (job_id : String) (result : α) :
    JobManagerState α :=
  match dlookup s.jobs job_id with
  | none => s
  | some job => { s with jobs := dinsert s.jobs job_id { job with final_result := some result } }

/-- `JobManager.set_job_error`: sets `error`; no-op when unknown. -/
def set_job_error {α : Type} (s : JobManagerState α) (job_id : String) (error : String) :
    JobManagerState α :=
  match dlookup s.jobs job_id with
  | none => s
  | some job => { s with jobs := dinsert s.jobs job_id { job with error := some error } }

/-- `JobManager.add_intermediate_result` (src/app/jobs/manager.py lines
159-170): appends a `(now, data)` pair to the job's list; no-op when
unknown. -/
def add_intermediate_result {α : Type} (s : JobManagerState α) (job_id : String) (data : α)
    (now : Int) : JobManagerState α :=
  match dlookup s.jobs job_id with
  | none => s
  | some job =>
    let intermediate : IntermediateResult α := { timestamp := now, data := data }
    let job1 := { job with intermediate_results := job.intermediate_results ++ [intermediate] }
    { s with jobs := dinsert s.jobs job_id job1 }

/-- `JobManager.get_queue_size`. -/
def get_queue_size {α : Type} (s : JobManagerState α) : Nat := s.queue.length

/-- `JobManager.get_job_count`. -/
def get_job_count {α : Type} (s : JobManagerState α) : Nat := s.jobs.length

/-- The loop-body condition of `cleanup_old_jobs`: skip (`continue`) unless
the status is terminal; then remove when `completed_at` is set and strictly
before the cutoff. -/
def cleanupRemoves {α : Type} (cutoff : Int) (job : Job α) : Bool :=
  if job.status ≠ JobStatus.COMPLETED ∧ job.status ≠ JobStatus.FAILED then false
  else
    match job.completed_at with
    | some t => decide (t < cutoff)
    | none => false

/-- `JobManager.cleanup_old_jobs` (src/app/jobs/manager.py lines 188-220):
computes `cutoff = now - retention`, collects the ids of jobs whose status
is terminal and whose `completed_at` is strictly before the cutoff, deletes
each collected id from the store, and returns the number removed. -/
def cleanup_old_jobs {α : Type} (s : JobManagerState α) (retention_seconds : Int)
    (now : Int) : JobManagerState α × Nat :=
  let cutoff := now - retention_seconds
  let jobs_to_remove := (s.jobs.filter (fun p => cleanupRemoves cutoff p.2)).map Prod.fst
  let jobs1 := jobs_to_remove.foldl (fun m job_id => ddelete m job_id) s.jobs
  ({ s with jobs := jobs1 }, jobs_to_remove.length)

/-! ## Handler registration (src/app/jobs/handlers.py, src/app/jobs/registry.py)

The repository contains two registry modules with module-level dicts:
`app.jobs.handlers.HANDLERS` and `app.jobs.registry._registry`. Handler
modules under src/app/handlers import `register_handler` from `app.jobs`,
whose `__init__.py` re-exports the one from `app.jobs.handlers`, so their
registrations land in `HANDLERS`; the submission endpoint imports
`can_handle` from `app.jobs.registry`, which consults `_registry`. -/

/-- The combined module-level registry state of the two modules; `H` is
the type of handler functions. `registry` embeds `_registry`. -/
structure HandlerModulesState (H : Type) where
  HANDLERS : List (String × H)
  registry : List (String × H)

/-- Interpreter-start state: both module dicts empty. -/
def HandlerModulesState.initial {H : Type} : HandlerModulesState H :=
  { HANDLERS := [], registry := [] }

/-- `app.jobs.handlers.register_handler` (the decorator re-exported by
`app.jobs.__init__` and imported by every handler module): assigns
`HANDLERS[job_type] = func`, unconditionally. -/
def handlers_register_handler {H : Type} (s : HandlerModulesState H) (job_type : String)
    (func : H) : HandlerModulesState H :=
  { s with HANDLERS := dinsert s.HANDLERS job_type func }

/-- `app.jobs.registry.register_handler` (src/app/jobs/registry.py lines
16-39): assigns `_registry[job_type] = func`, unconditionally. -/
def registry_register_handler {H : Type} (s : HandlerModulesState H) (job_type : String)
    (func : H) : HandlerModulesState H :=
  { s with registry := dinsert s.registry job_type func }

/-- `app.jobs.registry.can_handle` (src/app/jobs/registry.py lines 42-50):
`job_type in _registry`. -/
def can_handle {H : Type} (s : HandlerModulesState H) (job_type : String) : Bool :=
  (dlookup s.registry job_type).isSome

/-- `app.jobs.handlers.get_handler`: `HANDLERS.get(job_type)`. -/
def handlers_get_handler {H : Type} (s : HandlerModulesState H) (job_type : String) :
    Option H :=
  dlookup s.HANDLERS job_type

/-- `app.jobs.registry.get_handler`: `_registry.get(job_type)`. -/
def registry_get_handler {H : Type} (s : HandlerModulesState H) (job_type : String) :
    Option H :=
  dlookup s.registry job_type

/-- The single-dict registration statement `d[job_type] = func` shared by
both modules' `register_handler` bodies, on its own dict. -/
def register_handler {H : Type} (d : List (String × H)) (job_type : String) (func : H) :
    List (String × H) :=
  dinsert d job_type func

/-- Importing `app.handlers` (as src/app/main.py does at startup) imports
the modules `data_processing`, `echo` and `long_running`, each of which
applies the decorator it imported from `app.jobs`, i.e.
`app.jobs.handlers.register_handler`, for its job type. -/
def import_app_handlers {H : Type} (s : HandlerModulesState H) (dp echo lr : H) :
    HandlerModulesState H :=
  handlers_register_handler
    (handlers_register_handler (handlers_register_handler s "data_processing" dp) "echo" echo)
    "long_running" lr

/-! ## Idempotent submission (spec-modelled) and the submission endpoint -/

/-- State of the idempotent job manager: the job store and queue plus the
idempotency index `key -> job id`. -/
structure IdemManagerState (α : Type) where
  jobs : List (String × Job α)
  queue : List String
  idempotency : List (String × String)
deriving DecidableEq

/-- Modelled from the spec: the idempotent variant of
`JobManager.submit_job` is missing from src/ — the endpoint in
src/app/api/v1/endpoints/jobs.py calls `submit_job(type, payload, key)`
and unpacks `(job_id, is_new)`, but the `JobManager` present under
src/app/jobs/manager.py only has the two-argument, single-result variant.
Modelled from spec section 4.2: if `idempotencyKey` is provided and already
mapped, return the mapped job's id with `isNew = false` and perform no
further mutation (no new Job, no enqueue); otherwise allocate a new unique
id (the `fresh_id` argument), create a Job in `Pending`, record the
idempotency mapping if a key was given, enqueue the id, and return
`(id, true)`. -/
def submit_job_idem {α : Type} (s : IdemManagerState α) (job_type : String) (payload : α)
    (idempotency_key : Option String) (fresh_id : String) (now : Int) :
    IdemManagerState α × String × Bool :=
  match idempotency_key with
  | some k =>
    match dlookup s.idempotency k with
    | some mapped_id => (s, mapped_id, false)
    | none =>
      let job := Job.init fresh_id job_type payload now
      ({ jobs := dinsert s.jobs fresh_id job
         queue := s.queue ++ [fresh_id]
         idempotency := dinsert s.idempotency k fresh_id }, fresh_id, true)
  | none =>
    let job := Job.init fresh_id job_type payload now
    ({ s with jobs := dinsert s.jobs fresh_id job, queue := s.queue ++ [fresh_id] },
     fresh_id, true)

/-- Python truthiness-based `a or b` on optional strings: `None` and the
empty string are falsy. -/
def pyOr (a b : Option String) : Option String :=
  match a with
  | some s => if s = "" then b else some s
  | none => b

/-- `fastapi.HTTPException` as raised by the endpoints. -/
structure HTTPException where
  status_code : Nat
  detail : String
deriving DecidableEq

/-- The `submit_job` endpoint (src/app/api/v1/endpoints/jobs.py lines
18-91), engine-relevant behavior: reject with HTTP 400 before touching any
state when `can_handle` (from `app.jobs.registry`) is false; otherwise
resolve the final idempotency key (header takes precedence, Python `or`)
and call the manager's idempotent `submit_job`. Returns the endpoint
outcome together with the post-state of the manager. -/
def endpoint_submit_job {α H : Type} (reg : HandlerModulesState H) (s : IdemManagerState α)
    (job_type : String) (payload : α) (header_key body_key : Option String)
    (fresh_id : String) (now : Int) :
    Except HTTPException (String × Bool) × IdemManagerState α :=
  if can_handle reg job_type = false then
    (Except.error { status_code := 400, detail := "Unknown job type: " ++ job_type ++ "." }, s)
  else
    let final_idempotency_key := pyOr header_key body_key
    let r := submit_job_idem s job_type payload final_idempotency_key fresh_id now
    (Except.ok (r.2.1, r.2.2), r.1)

/-! ## Worker (src/app/core/worker.py)

The worker operates on the `JobManager` of src/app/core/job_manager.py,
whose `get_job`, `update_job_status`, `set_job_result`, `set_job_error`
and `add_intermediate_result` are line-for-line the same as those of
src/app/jobs/manager.py embedded above, so the same state type and
operations are reused. A handler is embedded as a function from the
payload to the ordered list of values it reports through
`context.add_result` before finishing, together with its outcome: a
returned result, or a raised exception. -/

/-- A raised Python exception as observed by `process_job`'s handler:
`type(e).__name__` and `str(e)`. -/
structure PyExcInfo where
  excName : String
  msg : String
deriving DecidableEq

/-- Embedded handler: reported intermediate values in order, then outcome. -/
def HandlerFn (α : Type) : Type :=
  α → List α × Except PyExcInfo α

/-- `JobContext.add_result` (src/app/jobs/handlers.py lines 26-33 and
src/app/jobs/base.py): the context holds only the job id and the manager
reference, and delegates to `JobManager.add_intermediate_result`. -/
def JobContext_add_result {α : Type} (ctx_job_id : String) (s : JobManagerState α)
    (data : α) (now : Int) : JobManagerState α :=
  add_intermediate_result s ctx_job_id data now

/-- `process_job` (src/app/core/worker.py lines 14-55): look the job up
(return early when missing), set `RUNNING`, resolve a handler (a missing
handler raises `ValueError`, caught by the `except` block), run it with the
payload and a context bound to the job id, and either store the result and
set `COMPLETED`, or store `f"{type(e).__name__}: {str(e)}"` and set
`FAILED`. Every `datetime.now()` read during the step is modelled by the
single `now` parameter; no claim distinguishes the instants within a step. -/
def process_job {α : Type} (handlers : List (String × HandlerFn α)) (s : JobManagerState α)
    (job_id : String) (now : Int) : JobManagerState α :=
  match dlookup s.jobs job_id with
  | none => s
  | some job =>
    let s1 := update_job_status s job_id JobStatus.RUNNING now
    match dlookup handlers job.type with
    | none =>
      let error_msg := "ValueError" ++ ": " ++ ("No handler registered for job type: " ++ job.type)
      let s2 := set_job_error s1 job_id error_msg
      update_job_status s2 job_id JobStatus.FAILED now
    | some handler =>
      match handler job.payload with
      | (reports, Except.ok result) =>
        let s2 := reports.foldl (fun acc d => JobContext_add_result job_id acc d now) s1
        let s3 := set_job_result s2 job_id result
        update_job_status s3 job_id JobStatus.COMPLETED now
      | (reports, Except.error e) =>
        let s2 := reports.foldl (fun acc d => JobContext_add_result job_id acc d now) s1
        let error_msg := e.excName ++ ": " ++ e.msg
        let s3 := set_job_error s2 job_id error_msg
        update_job_status s3 job_id JobStatus.FAILED now

/-- `JobManager.get_next_job`: dequeue the front of the FIFO queue;
`none` models the awaiting (suspended) worker on an empty queue. -/
def get_next_job {α : Type} (s : JobManagerState α) : Option (String × JobManagerState α) :=
  match s.queue with
  | [] => none
  | job_id :: rest => some (job_id, { s with queue := rest })

/-- One iteration of `worker_loop` (src/app/core/worker.py lines 58-82):
dequeue the next id and run `process_job` on it. -/
def worker_step {α : Type} (handlers : List (String × HandlerFn α)) (s : JobManagerState α)
    (now : Int) : JobManagerState α :=
  match get_next_job s with
  | none => s
  | some (job_id, s1) => process_job handlers s1 job_id now

/-- `n` iterations of the worker loop, with a clock value per iteration. -/
def worker_run {α : Type} (handlers : List (String × HandlerFn α)) (s : JobManagerState α) :
    List Int → JobManagerState α
  | [] => s
  | now :: nows => worker_run handlers (worker_step handlers s now) nows

/-! ## The engine as a transition system (for the queue/store invariant)

One engine step is one yield-free mutation burst of a single cooperative
task: a submission, a worker dequeue (src/app/core/worker.py: the worker
pops an id, and `process_job` marks the found job `RUNNING` before its
first suspension point, or returns at once when the job is missing), a
progress report from a running handler (`JobContext.add_result`), a worker
finishing its job on handler return or handler failure (the tail of
`process_job`), or a tick of the retention sweep (`cleanup_old_jobs`).
`active` is the multiset of ids currently held by workers between dequeue
and finish — each worker's local `job_id` variable. Freshness of
`create_id()` at submission is the hypothesis `hfresh`. -/

structure EngineState (α : Type) where
  jobs : List (String × Job α)
  queue : List String
  active : List String

/-- The `JobManager` view of the engine state. -/
def EngineState.mgr {α : Type} (s : EngineState α) : JobManagerState α :=
  { jobs := s.jobs, queue := s.queue }

def engine_submit {α : Type} (s : EngineState α) (job_type : String) (payload : α)
    (job_id : String) (now : Int) : EngineState α :=
  let m := (submit_job s.mgr job_type payload job_id now).1
  { jobs := m.jobs, queue := m.queue, active := s.active }

def engine_dequeue_found {α : Type} (s : EngineState α) (job_id : String)
    (rest : List String) (now : Int) : EngineState α :=
  let m := update_job_status { jobs := s.jobs, queue := rest } job_id JobStatus.RUNNING now
  { jobs := m.jobs, queue := m.queue, active := job_id :: s.active }

def engine_dequeue_missing {α : Type} (s : EngineState α) (rest : List String) :
    EngineState α :=
  { s with queue := rest }

def engine_report {α : Type} (s : EngineState α) (job_id : String) (data : α) (now : Int) :
    EngineState α :=
  let m := add_intermediate_result s.mgr job_id data now
  { jobs := m.jobs, queue := m.queue, active := s.active }

def engine_finish_ok {α : Type} (s : EngineState α) (job_id : String) (result : α)
    (now : Int) : EngineState α :=
  let m := update_job_status (set_job_result s.mgr job_id result) job_id
    JobStatus.COMPLETED now
  { jobs := m.jobs, queue := m.queue, active := s.active.erase job_id }

def engine_finish_err {α : Type} (s : EngineState α) (job_id : String) (error : String)
    (now : Int) : EngineState α :=
  let m := update_job_status (set_job_error s.mgr job_id error) job_id JobStatus.FAILED now
  { jobs := m.jobs, queue := m.queue, active := s.active.erase job_id }

def engine_cleanup {α : Type} (s : EngineState α) (retention_seconds now : Int) :
    EngineState α :=
  let m := (cleanup_old_jobs s.mgr retention_seconds now).1
  { jobs := m.jobs, queue := m.queue, active := s.active }

inductive EngineStep {α : Type} : EngineState α → EngineState α → Prop where
  | submit (s : EngineState α) (job_type : String) (payload : α) (job_id : String)
      (now : Int) (hfresh : dlookup s.jobs job_id = none) :
      EngineStep s (engine_submit s job_type payload job_id now)
  | dequeue_found (s : EngineState α) (job_id : String) (rest : List String) (now : Int)
      (hq : s.queue = job_id :: rest) (hj : (dlookup s.jobs job_id).isSome) :
      EngineStep s (engine_dequeue_found s job_id rest now)
  | dequeue_missing (s : EngineState α) (job_id : String) (rest : List String)
      (hq : s.queue = job_id :: rest) (hj : dlookup s.jobs job_id = none) :
      EngineStep s (engine_dequeue_missing s rest)
  | report (s : EngineState α) (job_id : String) (data : α) (now : Int)
      (hid : job_id ∈ s.active) :
      EngineStep s (engine_report s job_id data now)
  | finish_ok (s : EngineState α) (job_id : String) (result : α) (now : Int)
      (hid : job_id ∈ s.active) :
      EngineStep s (engine_finish_ok s job_id result now)
  | finish_err (s : EngineState α) (job_id : String) (error : String) (now : Int)
      (hid : job_id ∈ s.active) :
      EngineStep s (engine_finish_err s job_id error now)
  | cleanup (s : EngineState α) (retention_seconds now : Int) :
      EngineStep s (engine_cleanup s retention_seconds now)

/-- States reachable from engine start (`JobManager.__init__`, no worker
holding a job). -/
inductive EngineReachable {α : Type} : EngineState α → Prop where
  | init : EngineReachable { jobs := [], queue := [], active := [] }
  | step {s s' : EngineState α} :
      EngineReachable s → EngineStep s s' → EngineReachable s'

/-- The inductive invariant: queued ids are stored and `PENDING`; worker-held
ids are stored and `RUNNING` and not queued; queue, worker-held ids and
store keys are duplicate-free. -/
structure EngineInv {α : Type} (s : EngineState α) : Prop where
  queue_pending : ∀ id ∈ s.queue,
    ∃ j, dlookup s.jobs id = some j ∧ j.status = JobStatus.PENDING
  queue_nodup : s.queue.Nodup
  active_running : ∀ id ∈ s.active,
    ∃ j, dlookup s.jobs id = some j ∧ j.status = JobStatus.RUNNING
  active_not_queued : ∀ id ∈ s.active, id ∉ s.queue
  active_nodup : s.active.Nodup
  keys_nodup : (s.jobs.map Prod.fst).Nodup

/-! ## Claim support: iterated idempotent submission -/

/-- A sequence of further submissions under one idempotency key `k`: each
element carries the call's type, payload, freshly generated id and clock
value; returns the final state and the `(jobId, isNew)` results in order. -/
def submit_job_idem_many {α : Type} (s : IdemManagerState α) (k : String) :
    List (String × α × String × Int) → IdemManagerState α × List (String × Bool)
  | [] => (s, [])
  | (jt, p, fid, now) :: rest =>
    let r := submit_job_idem s jt p (some k) fid now
    let rr := submit_job_idem_many r.1 k rest
    (rr.1, (r.2.1, r.2.2) :: rr.2)

def c1_empty : IdemManagerState Nat := { jobs := [], queue := [], idempotency := [] }

def wit_job : Job Nat :=
  { id := "j", type := "echo", payload := 3, status := JobStatus.PENDING, created_at := 0,
    started_at := none, completed_at := none, intermediate_results := [],
    final_result := none, error := none }

def wit_state : JobManagerState Nat := { jobs := [("j", wit_job)], queue := [] }

/-! ## Claims about status transitions and timestamps -/

def c3_job : Job Nat :=
  { id := "j", type := "echo", payload := 0, status := JobStatus.COMPLETED,
    created_at := 0, started_at := some 1, completed_at := some 2,
    intermediate_results := [], final_result := some 5, error := none }

def c3_state : JobManagerState Nat := { jobs := [("j", c3_job)], queue := [] }

def c4_job : Job Nat :=
  { id := "j", type := "echo", payload := 0, status := JobStatus.COMPLETED,
    created_at := 0, started_at := some 1, completed_at := some 2,
    intermediate_results := [], final_result := some 5, error := none }

def c4_state : JobManagerState Nat := { jobs := [("j", c4_job)], queue := [] }

def c5_done_job : Job Nat :=
  { id := "a", type := "echo", payload := 0, status := JobStatus.COMPLETED,
    created_at := 0, started_at := some 1, completed_at := some 50,
    intermediate_results := [], final_result := some 1, error := none }

def c5_live_job : Job Nat :=
  { id := "b", type := "echo", payload := 0, status := JobStatus.RUNNING,
    created_at := 0, started_at := some 1, completed_at := none,
    intermediate_results := [], final_result := none, error := none }

def c5_state : JobManagerState Nat :=
  { jobs := [("a", c5_done_job), ("b", c5_live_job)], queue := [] }

def c6_handler : HandlerFn Nat := fun p => ([p], Except.ok (p + 1))

def c6_handlers : List (String × HandlerFn Nat) := [("echo", c6_handler)]

def c10_state : EngineState Nat :=
  engine_submit { jobs := [], queue := [], active := [] } "echo" 0 "a" 0

/-! ## Theorems -/

theorem dlookup_dinsert_self {β : Type} (m : List (String × β)) (k : String) (v : β) :
    dlookup (dinsert m k v) k = some v := by
  induction m with
  | nil => simp [dinsert, dlookup]
  | cons p t ih =>
    obtain ⟨a, b⟩ := p
    by_cases h : a = k
    · simp [dinsert, h, dlookup]
    · simp [dinsert, h, dlookup, ih]

theorem dlookup_dinsert_ne {β : Type} (m : List (String × β)) (k k' : String) (v : β)
    (h : k ≠ k') : dlookup (dinsert m k v) k' = dlookup m k' := by
  induction m with
  | nil => simp [dinsert, dlookup, h]
  | cons p t ih =>
    obtain ⟨a, b⟩ := p
    by_cases ha : a = k
    · subst ha
      simp [dinsert, dlookup, h]
    · by_cases ha' : a = k'
      · subst ha'
        simp [dinsert, dlookup, ha]
      · simp [dinsert, ha, dlookup, ha', ih]

theorem dlookup_eq_none_iff {β : Type} (m : List (String × β)) (k : String) :
    dlookup m k = none ↔ k ∉ m.map Prod.fst := by
  induction m with
  | nil => simp [dlookup]
  | cons p t ih =>
    obtain ⟨a, b⟩ := p
    by_cases h : a = k
    · subst h
      simp [dlookup]
    · rw [show dlookup ((a, b) :: t) k = dlookup t k from by simp [dlookup, h]]
      simp only [List.map_cons, List.mem_cons, ih]
      constructor
      · intro hk hc
        rcases hc with hc | hc
        · exact (Ne.symm h) hc
        · exact hk hc
      · intro hk hc
        exact hk (Or.inr hc)

theorem keys_dinsert_of_mem {β : Type} (m : List (String × β)) (k : String) (v : β)
    (h : k ∈ m.map Prod.fst) :
    (dinsert m k v).map Prod.fst = m.map Prod.fst := by
  induction m with
  | nil => simp at h
  | cons p t ih =>
    obtain ⟨a, b⟩ := p
    by_cases ha : a = k
    · subst ha
      simp [dinsert]
    · simp only [List.map_cons, List.mem_cons] at h
      rcases h with h | h
      · exact absurd h.symm ha
      · simp [dinsert, ha, ih h]

theorem keys_dinsert_of_not_mem {β : Type} (m : List (String × β)) (k : String) (v : β)
    (h : k ∉ m.map Prod.fst) :
    (dinsert m k v).map Prod.fst = m.map Prod.fst ++ [k] := by
  induction m with
  | nil => simp [dinsert]
  | cons p t ih =>
    obtain ⟨a, b⟩ := p
    simp only [List.map_cons, List.mem_cons] at h
    push_neg at h
    obtain ⟨h1, h2⟩ := h
    simp [dinsert, Ne.symm h1, ih h2]

/-! ## Lemma layer: pointwise behavior of the store operations -/

theorem mem_keys_of_dlookup {β : Type} {m : List (String × β)} {k : String} {v : β}
    (h : dlookup m k = some v) : k ∈ m.map Prod.fst := by
  by_contra hk
  rw [(dlookup_eq_none_iff m k).mpr hk] at h
  exact Option.noConfusion h

theorem apply_status_status {α : Type} (job : Job α) (status : JobStatus) (now : Int) :
    (apply_status job status now).status = status := by
  unfold apply_status
  split_ifs <;> rfl

theorem apply_status_type {α : Type} (job : Job α) (status : JobStatus) (now : Int) :
    (apply_status job status now).type = job.type := by
  unfold apply_status
  split_ifs <;> rfl

theorem apply_status_payload {α : Type} (job : Job α) (status : JobStatus) (now : Int) :
    (apply_status job status now).payload = job.payload := by
  unfold apply_status
  split_ifs <;> rfl

theorem apply_status_final_result {α : Type} (job : Job α) (status : JobStatus) (now : Int) :
    (apply_status job status now).final_result = job.final_result := by
  unfold apply_status
  split_ifs <;> rfl

theorem apply_status_error {α : Type} (job : Job α) (status : JobStatus) (now : Int) :
    (apply_status job status now).error = job.error := by
  unfold apply_status
  split_ifs <;> rfl

/-- A `started_at` that is already set is never overwritten: the `RUNNING`
branch requires it unset, and the other branches leave it untouched. -/
theorem apply_status_started_at_of_set {α : Type} (job : Job α) (status : JobStatus)
    (now t : Int) (h : job.started_at = some t) :
    (apply_status job status now).started_at = some t := by
  unfold apply_status
  split_ifs with h1 h2
  · exact absurd (h ▸ h1.2) (Option.noConfusion)
  · exact h
  · exact h

/-- Every terminal assignment stamps `completed_at` with the current time,
overwriting any previous value. -/
theorem apply_status_completed_at_terminal {α : Type} (job : Job α) (status : JobStatus)
    (now : Int) (h : status = JobStatus.COMPLETED ∨ status = JobStatus.FAILED) :
    (apply_status job status now).completed_at = some now := by
  unfold apply_status
  split_ifs with h1
  · rcases h with h | h <;> (rw [h] at h1; exact absurd h1.1 (by simp))
  · rfl

/-- Non-terminal assignments leave `completed_at` unchanged. -/
theorem apply_status_completed_at_nonterminal {α : Type} (job : Job α) (status : JobStatus)
    (now : Int) (h : ¬(status = JobStatus.COMPLETED ∨ status = JobStatus.FAILED)) :
    (apply_status job status now).completed_at = job.completed_at := by
  unfold apply_status
  split_ifs with h1
  · rfl
  · rfl

theorem update_job_status_lookup_self {α : Type} (s : JobManagerState α) (job_id : String)
    (status : JobStatus) (now : Int) (job : Job α) (h : dlookup s.jobs job_id = some job) :
    dlookup (update_job_status s job_id status now).jobs job_id
      = some (apply_status job status now) := by
  unfold update_job_status
  rw [h]
  exact dlookup_dinsert_self _ _ _

theorem update_job_status_lookup_ne {α : Type} (s : JobManagerState α) (job_id id' : String)
    (status : JobStatus) (now : Int) (h : job_id ≠ id') :
    dlookup (update_job_status s job_id status now).jobs id' = dlookup s.jobs id' := by
  unfold update_job_status
  cases hj : dlookup s.jobs job_id with
  | none => rfl
  | some job => exact dlookup_dinsert_ne _ _ _ _ h

theorem update_job_status_queue {α : Type} (s : JobManagerState α) (job_id : String)
    (status : JobStatus) (now : Int) :
    (update_job_status s job_id status now).queue = s.queue := by
  unfold update_job_status
  cases hj : dlookup s.jobs job_id <;> rfl

theorem update_job_status_keys {α : Type} (s : JobManagerState α) (job_id : String)
    (status : JobStatus) (now : Int) :
    (update_job_status s job_id status now).jobs.map Prod.fst = s.jobs.map Prod.fst := by
  unfold update_job_status
  cases hj : dlookup s.jobs job_id with
  | none => rfl
  | some job => exact keys_dinsert_of_mem _ _ _ (mem_keys_of_dlookup hj)

theorem set_job_result_lookup_self {α : Type} (s : JobManagerState α) (job_id : String)
    (result : α) (job : Job α) (h : dlookup s.jobs job_id = some job) :
    dlookup (set_job_result s job_id result).jobs job_id
      = some { job with final_result := some result } := by
  unfold set_job_result
  rw [h]
  exact dlookup_dinsert_self _ _ _

theorem set_job_result_lookup_ne {α : Type} (s : JobManagerState α) (job_id id' : String)
    (result : α) (h : job_id ≠ id') :
    dlookup (set_job_result s job_id result).jobs id' = dlookup s.jobs id' := by
  unfold set_job_result
  cases hj : dlookup s.jobs job_id with
  | none => rfl
  | some job => exact dlookup_dinsert_ne _ _ _ _ h

theorem set_job_result_queue {α : Type} (s : JobManagerState α) (job_id : String)
    (result : α) : (set_job_result s job_id result).queue = s.queue := by
  unfold set_job_result
  cases hj : dlookup s.jobs job_id <;> rfl

theorem set_job_result_keys {α : Type} (s : JobManagerState α) (job_id : String)
    (result : α) :
    (set_job_result s job_id result).jobs.map Prod.fst = s.jobs.map Prod.fst := by
  unfold set_job_result
  cases hj : dlookup s.jobs job_id with
  | none => rfl
  | some job => exact keys_dinsert_of_mem _ _ _ (mem_keys_of_dlookup hj)

theorem set_job_error_lookup_self {α : Type} (s : JobManagerState α) (job_id : String)
    (error : String) (job : Job α) (h : dlookup s.jobs job_id = some job) :
    dlookup (set_job_error s job_id error).jobs job_id
      = some { job with error := some error } := by
  unfold set_job_error
  rw [h]
  exact dlookup_dinsert_self _ _ _

theorem set_job_error_lookup_ne {α : Type} (s : JobManagerState α) (job_id id' : String)
    (error : String) (h : job_id ≠ id') :
    dlookup (set_job_error s job_id error).jobs id' = dlookup s.jobs id' := by
  unfold set_job_error
  cases hj : dlookup s.jobs job_id with
  | none => rfl
  | some job => exact dlookup_dinsert_ne _ _ _ _ h

theorem set_job_error_queue {α : Type} (s : JobManagerState α) (job_id : String)
    (error : String) : (set_job_error s job_id error).queue = s.queue := by
  unfold set_job_error
  cases hj : dlookup s.jobs job_id <;> rfl

theorem set_job_error_keys {α : Type} (s : JobManagerState α) (job_id : String)
    (error : String) :
    (set_job_error s job_id error).jobs.map Prod.fst = s.jobs.map Prod.fst := by
  unfold set_job_error
  cases hj : dlookup s.jobs job_id with
  | none => rfl
  | some job => exact keys_dinsert_of_mem _ _ _ (mem_keys_of_dlookup hj)

theorem add_intermediate_result_lookup_self {α : Type} (s : JobManagerState α)
    (job_id : String) (data : α) (now : Int) (job : Job α)
    (h : dlookup s.jobs job_id = some job) :
    dlookup (add_intermediate_result s job_id data now).jobs job_id
      = some { job with intermediate_results :=
          job.intermediate_results ++ [{ timestamp := now, data := data }] } := by
  unfold add_intermediate_result
  rw [h]
  exact dlookup_dinsert_self _ _ _

theorem add_intermediate_result_lookup_ne {α : Type} (s : JobManagerState α)
    (job_id id' : String) (data : α) (now : Int) (h : job_id ≠ id') :
    dlookup (add_intermediate_result s job_id data now).jobs id' = dlookup s.jobs id' := by
  unfold add_intermediate_result
  cases hj : dlookup s.jobs job_id with
  | none => rfl
  | some job => exact dlookup_dinsert_ne _ _ _ _ h

theorem add_intermediate_result_queue {α : Type} (s : JobManagerState α) (job_id : String)
    (data : α) (now : Int) :
    (add_intermediate_result s job_id data now).queue = s.queue := by
  unfold add_intermediate_result
  cases hj : dlookup s.jobs job_id <;> rfl

theorem add_intermediate_result_keys {α : Type} (s : JobManagerState α) (job_id : String)
    (data : α) (now : Int) :
    (add_intermediate_result s job_id data now).jobs.map Prod.fst = s.jobs.map Prod.fst := by
  unfold add_intermediate_result
  cases hj : dlookup s.jobs job_id with
  | none => rfl
  | some job => exact keys_dinsert_of_mem _ _ _ (mem_keys_of_dlookup hj)

/-! ## Lemma layer: the cleanup sweep -/

theorem foldl_ddelete_cons_not_mem {β : Type} (t : List (String × β)) (a : String) (b : β)
    (ids : List String) (h : a ∉ ids) :
    ids.foldl (fun m k => ddelete m k) ((a, b) :: t)
      = (a, b) :: ids.foldl (fun m k => ddelete m k) t := by
  induction ids generalizing t with
  | nil => rfl
  | cons k ks ih =>
    have hk : a ≠ k := fun e => h (e ▸ List.mem_cons_self k ks)
    have hks : a ∉ ks := fun e => h (List.mem_cons_of_mem k e)
    have hdel : ddelete ((a, b) :: t) k = (a, b) :: ddelete t k := by
      simp [ddelete, hk]
    simp only [List.foldl_cons, hdel]
    exact ih (ddelete t k) hks

/-- Collecting the ids of the entries satisfying `P` and then deleting each
of them is, on a dict with unique keys, exactly filtering `P` out. -/
theorem foldl_ddelete_filter {β : Type} (l : List (String × β)) (P : String × β → Bool)
    (hnd : (l.map Prod.fst).Nodup) :
    ((l.filter P).map Prod.fst).foldl (fun m k => ddelete m k) l
      = l.filter (fun p => ! P p) := by
  induction l with
  | nil => rfl
  | cons p t ih =>
    obtain ⟨a, b⟩ := p
    simp only [List.map_cons, List.nodup_cons] at hnd
    obtain ⟨ha, ht⟩ := hnd
    by_cases hp : P (a, b)
    · have hfil : ((a, b) :: t).filter P = (a, b) :: t.filter P := by
        simp [List.filter_cons, hp]
      have hdel : ddelete ((a, b) :: t) a = t := by simp [ddelete]
      rw [hfil]
      simp only [List.map_cons, List.foldl_cons, hdel]
      rw [ih ht]
      simp [List.filter_cons, hp]
    · have hfil : ((a, b) :: t).filter P = t.filter P := by
        simp [List.filter_cons, hp]
      have hnotin : a ∉ (t.filter P).map Prod.fst := by
        intro hmem
        exact ha ((List.Sublist.map Prod.fst (List.filter_sublist t)).subset hmem)
      rw [hfil, foldl_ddelete_cons_not_mem t a b _ hnotin, ih ht]
      simp [List.filter_cons, hp]

/-- Filtering by a predicate the entry satisfies preserves its binding. -/
theorem dlookup_filter_of_pos {β : Type} (l : List (String × β)) (P : String × β → Bool)
    (k : String) (v : β) (h : dlookup l k = some v) (hp : P (k, v) = true) :
    dlookup (l.filter P) k = some v := by
  induction l with
  | nil => simp [dlookup] at h
  | cons p t ih =>
    obtain ⟨a, b⟩ := p
    by_cases hak : a = k
    · subst hak
      have hb : b = v := by
        have := h
        simp [dlookup] at this
        exact this
      subst hb
      simp [List.filter_cons, hp, dlookup]
    · have h' : dlookup t k = some v := by
        have := h
        simp [dlookup, hak] at this
        exact this
      by_cases hpa : P (a, b)
      · simp [List.filter_cons, hpa, dlookup, hak, ih h']
      · simp [List.filter_cons, hpa, ih h']

/-- On a store with unique keys, `cleanup_old_jobs` leaves exactly the
entries the loop-body condition does not select, in order. -/
theorem cleanup_old_jobs_jobs {α : Type} (s : JobManagerState α) (retention_seconds now : Int)
    (hnd : (s.jobs.map Prod.fst).Nodup) :
    (cleanup_old_jobs s retention_seconds now).1.jobs
      = s.jobs.filter (fun p => ! cleanupRemoves (now - retention_seconds) p.2) := by
  unfold cleanup_old_jobs
  exact foldl_ddelete_filter s.jobs (fun p => cleanupRemoves (now - retention_seconds) p.2) hnd

/-- The returned count is the number of selected entries. -/
theorem cleanup_old_jobs_count {α : Type} (s : JobManagerState α) (retention_seconds now : Int) :
    (cleanup_old_jobs s retention_seconds now).2
      = (s.jobs.filter (fun p => cleanupRemoves (now - retention_seconds) p.2)).length := by
  unfold cleanup_old_jobs
  simp

/-- The sweep never touches the queue. -/
theorem cleanup_old_jobs_queue {α : Type} (s : JobManagerState α) (retention_seconds now : Int) :
    (cleanup_old_jobs s retention_seconds now).1.queue = s.queue := rfl

/-- A job whose status is not terminal is never selected by the sweep. -/
theorem cleanupRemoves_false_of_nonterminal {α : Type} (cutoff : Int) (job : Job α)
    (h : job.status ≠ JobStatus.COMPLETED) (h' : job.status ≠ JobStatus.FAILED) :
    cleanupRemoves cutoff job = false := by
  simp [cleanupRemoves, h, h']

theorem engine_submit_jobs {α : Type} (s : EngineState α) (jt : String) (p : α)
    (id : String) (now : Int) :
    (engine_submit s jt p id now).jobs = dinsert s.jobs id (Job.init id jt p now) := rfl

theorem engine_submit_queue {α : Type} (s : EngineState α) (jt : String) (p : α)
    (id : String) (now : Int) :
    (engine_submit s jt p id now).queue = s.queue ++ [id] := rfl

theorem engine_submit_active {α : Type} (s : EngineState α) (jt : String) (p : α)
    (id : String) (now : Int) :
    (engine_submit s jt p id now).active = s.active := rfl

theorem engine_dequeue_found_queue {α : Type} (s : EngineState α) (id : String)
    (rest : List String) (now : Int) :
    (engine_dequeue_found s id rest now).queue = rest := by
  show (update_job_status { jobs := s.jobs, queue := rest } id JobStatus.RUNNING now).queue
    = rest
  rw [update_job_status_queue]

theorem engine_dequeue_found_active {α : Type} (s : EngineState α) (id : String)
    (rest : List String) (now : Int) :
    (engine_dequeue_found s id rest now).active = id :: s.active := rfl

theorem engineInv_submit {α : Type} (s : EngineState α) (jt : String) (p : α) (id : String)
    (now : Int) (inv : EngineInv s) (hfresh : dlookup s.jobs id = none) :
    EngineInv (engine_submit s jt p id now) := by
  have hid_keys : id ∉ s.jobs.map Prod.fst := (dlookup_eq_none_iff s.jobs id).mp hfresh
  have hid_queue : id ∉ s.queue := by
    intro hm
    obtain ⟨j, hj, _⟩ := inv.queue_pending id hm
    rw [hfresh] at hj
    exact Option.noConfusion hj
  have hid_active : id ∉ s.active := by
    intro hm
    obtain ⟨j, hj, _⟩ := inv.active_running id hm
    rw [hfresh] at hj
    exact Option.noConfusion hj
  refine ⟨?_, ?_, ?_, ?_, ?_, ?_⟩
  · intro q hq
    rw [engine_submit_queue] at hq
    rw [engine_submit_jobs]
    rcases List.mem_append.mp hq with hq | hq
    · obtain ⟨j, hj, hps⟩ := inv.queue_pending q hq
      have hne : id ≠ q := fun e => hid_queue (e ▸ hq)
      exact ⟨j, by rw [dlookup_dinsert_ne _ _ _ _ hne]; exact hj, hps⟩
    · have hq' : q = id := by simpa using hq
      subst hq'
      exact ⟨Job.init q jt p now, dlookup_dinsert_self _ _ _, rfl⟩
  · rw [engine_submit_queue]
    refine List.Nodup.append inv.queue_nodup (List.nodup_singleton id) ?_
    intro a ha hb
    rw [List.mem_singleton] at hb
    subst hb
    exact hid_queue ha
  · intro a ha
    rw [engine_submit_active] at ha
    rw [engine_submit_jobs]
    obtain ⟨j, hj, hrs⟩ := inv.active_running a ha
    have hne : id ≠ a := fun e => hid_active (e ▸ ha)
    exact ⟨j, by rw [dlookup_dinsert_ne _ _ _ _ hne]; exact hj, hrs⟩
  · intro a ha
    rw [engine_submit_active] at ha
    rw [engine_submit_queue]
    intro hmem
    rcases List.mem_append.mp hmem with hm | hm
    · exact inv.active_not_queued a ha hm
    · have ha' : a = id := by simpa using hm
      subst ha'
      exact hid_active ha
  · rw [engine_submit_active]
    exact inv.active_nodup
  · rw [engine_submit_jobs, keys_dinsert_of_not_mem _ _ _ hid_keys]
    refine List.Nodup.append inv.keys_nodup (List.nodup_singleton id) ?_
    intro a ha hb
    rw [List.mem_singleton] at hb
    subst hb
    exact hid_keys ha

theorem engineInv_dequeue_found {α : Type} (s : EngineState α) (id : String)
    (rest : List String) (now : Int) (inv : EngineInv s) (hq : s.queue = id :: rest)
    (hj : (dlookup s.jobs id).isSome) :
    EngineInv (engine_dequeue_found s id rest now) := by
  obtain ⟨job, hjob⟩ := Option.isSome_iff_exists.mp hj
  have hmemq : id ∈ s.queue := by rw [hq]; exact List.mem_cons_self id rest
  have hnd := inv.queue_nodup
  rw [hq] at hnd
  have hidrest : id ∉ rest := (List.nodup_cons.mp hnd).1
  have hrest_nd : rest.Nodup := (List.nodup_cons.mp hnd).2
  have hself : dlookup (engine_dequeue_found s id rest now).jobs id
      = some (apply_status job JobStatus.RUNNING now) := by
    show dlookup
      (update_job_status { jobs := s.jobs, queue := rest } id JobStatus.RUNNING now).jobs id
      = _
    exact update_job_status_lookup_self { jobs := s.jobs, queue := rest } id _ now job hjob
  have hne : ∀ q, id ≠ q →
      dlookup (engine_dequeue_found s id rest now).jobs q = dlookup s.jobs q := by
    intro q hq2
    show dlookup
      (update_job_status { jobs := s.jobs, queue := rest } id JobStatus.RUNNING now).jobs q
      = _
    exact update_job_status_lookup_ne { jobs := s.jobs, queue := rest } id q _ now hq2
  refine ⟨?_, ?_, ?_, ?_, ?_, ?_⟩
  · intro q hq2
    rw [engine_dequeue_found_queue] at hq2
    have hqid : id ≠ q := fun e => hidrest (e ▸ hq2)
    obtain ⟨j, hlj, hps⟩ := inv.queue_pending q (by rw [hq]; exact List.mem_cons_of_mem _ hq2)
    exact ⟨j, by rw [hne q hqid]; exact hlj, hps⟩
  · rw [engine_dequeue_found_queue]
    exact hrest_nd
  · intro a ha
    rw [engine_dequeue_found_active] at ha
    rcases List.mem_cons.mp ha with ha | ha
    · subst ha
      exact ⟨apply_status job JobStatus.RUNNING now, hself, apply_status_status job _ now⟩
    · obtain ⟨j, hlj, hrs⟩ := inv.active_running a ha
      have hne2 : id ≠ a := by
        intro e
        subst e
        exact inv.active_not_queued id ha hmemq
      exact ⟨j, by rw [hne a hne2]; exact hlj, hrs⟩
  · intro a ha
    rw [engine_dequeue_found_active] at ha
    rw [engine_dequeue_found_queue]
    rcases List.mem_cons.mp ha with ha | ha
    · subst ha
      exact hidrest
    · intro hmem
      exact inv.active_not_queued a ha (by rw [hq]; exact List.mem_cons_of_mem _ hmem)
  · rw [engine_dequeue_found_active]
    refine List.nodup_cons.mpr ⟨?_, inv.active_nodup⟩
    intro hmem
    obtain ⟨j, hlj, hrs⟩ := inv.active_running id hmem
    obtain ⟨j2, hlj2, hps⟩ := inv.queue_pending id hmemq
    rw [hlj] at hlj2
    injection hlj2 with e
    rw [← e] at hps
    rw [hrs] at hps
    exact JobStatus.noConfusion hps
  · show (update_job_status { jobs := s.jobs, queue := rest } id JobStatus.RUNNING
      now).jobs.map Prod.fst |>.Nodup
    rw [update_job_status_keys]
    exact inv.keys_nodup

theorem engineInv_dequeue_missing {α : Type} (s : EngineState α) (id : String)
    (rest : List String) (inv : EngineInv s) (hq : s.queue = id :: rest) :
    EngineInv (engine_dequeue_missing s rest) := by
  have hnd := inv.queue_nodup
  rw [hq] at hnd
  refine ⟨?_, ?_, ?_, ?_, ?_, ?_⟩
  · intro q hq2
    exact inv.queue_pending q (by rw [hq]; exact List.mem_cons_of_mem _ hq2)
  · exact (List.nodup_cons.mp hnd).2
  · exact inv.active_running
  · intro a ha hmem
    exact inv.active_not_queued a ha (by rw [hq]; exact List.mem_cons_of_mem _ hmem)
  · exact inv.active_nodup
  · exact inv.keys_nodup

theorem engineInv_report {α : Type} (s : EngineState α) (id : String) (d : α) (now : Int)
    (inv : EngineInv s) (hid : id ∈ s.active) :
    EngineInv (engine_report s id d now) := by
  obtain ⟨job, hjob, hrs⟩ := inv.active_running id hid
  have hqueue : (engine_report s id d now).queue = s.queue :=
    add_intermediate_result_queue s.mgr id d now
  have hactive : (engine_report s id d now).active = s.active := rfl
  have hself : dlookup (engine_report s id d now).jobs id
      = some { job with intermediate_results :=
          job.intermediate_results ++ [{ timestamp := now, data := d }] } :=
    add_intermediate_result_lookup_self s.mgr id d now job hjob
  have hne : ∀ q, id ≠ q →
      dlookup (engine_report s id d now).jobs q = dlookup s.jobs q := fun q h =>
    add_intermediate_result_lookup_ne s.mgr id q d now h
  refine ⟨?_, ?_, ?_, ?_, ?_, ?_⟩
  · intro q hq
    rw [hqueue] at hq
    have hqid : id ≠ q := fun e => inv.active_not_queued id hid (e ▸ hq)
    obtain ⟨j, hlj, hps⟩ := inv.queue_pending q hq
    exact ⟨j, by rw [hne q hqid]; exact hlj, hps⟩
  · rw [hqueue]
    exact inv.queue_nodup
  · intro a ha
    rw [hactive] at ha
    by_cases hai : a = id
    · subst hai
      refine ⟨_, hself, ?_⟩
      exact hrs
    · obtain ⟨j, hlj, hrs2⟩ := inv.active_running a ha
      exact ⟨j, by rw [hne a (Ne.symm hai)]; exact hlj, hrs2⟩
  · intro a ha
    rw [hactive] at ha
    rw [hqueue]
    exact inv.active_not_queued a ha
  · rw [hactive]
    exact inv.active_nodup
  · show (add_intermediate_result s.mgr id d now).jobs.map Prod.fst |>.Nodup
    rw [add_intermediate_result_keys]
    exact inv.keys_nodup

theorem engineInv_finish_ok {α : Type} (s : EngineState α) (id : String) (v : α) (now : Int)
    (inv : EngineInv s) (hid : id ∈ s.active) :
    EngineInv (engine_finish_ok s id v now) := by
  obtain ⟨job, hjob, hrs⟩ := inv.active_running id hid
  have hqueue : (engine_finish_ok s id v now).queue = s.queue := by
    show (update_job_status (set_job_result s.mgr id v) id JobStatus.COMPLETED now).queue
      = s.queue
    rw [update_job_status_queue]
    exact set_job_result_queue s.mgr id v
  have hactive : (engine_finish_ok s id v now).active = s.active.erase id := rfl
  have hne : ∀ q, id ≠ q →
      dlookup (engine_finish_ok s id v now).jobs q = dlookup s.jobs q := by
    intro q h
    show dlookup
      (update_job_status (set_job_result s.mgr id v) id JobStatus.COMPLETED now).jobs q = _
    rw [update_job_status_lookup_ne _ id q _ now h]
    exact set_job_result_lookup_ne s.mgr id q v h
  have hkeys : (engine_finish_ok s id v now).jobs.map Prod.fst = s.jobs.map Prod.fst := by
    show (update_job_status (set_job_result s.mgr id v) id JobStatus.COMPLETED
      now).jobs.map Prod.fst = _
    rw [update_job_status_keys]
    exact set_job_result_keys s.mgr id v
  refine ⟨?_, ?_, ?_, ?_, ?_, ?_⟩
  · intro q hq
    rw [hqueue] at hq
    have hqid : id ≠ q := fun e => inv.active_not_queued id hid (e ▸ hq)
    obtain ⟨j, hlj, hps⟩ := inv.queue_pending q hq
    exact ⟨j, by rw [hne q hqid]; exact hlj, hps⟩
  · rw [hqueue]
    exact inv.queue_nodup
  · intro a ha
    rw [hactive] at ha
    obtain ⟨hane, hamem⟩ := (inv.active_nodup.mem_erase_iff).mp ha
    obtain ⟨j, hlj, hrs2⟩ := inv.active_running a hamem
    exact ⟨j, by rw [hne a (Ne.symm hane)]; exact hlj, hrs2⟩
  · intro a ha
    rw [hactive] at ha
    rw [hqueue]
    exact inv.active_not_queued a ((inv.active_nodup.mem_erase_iff).mp ha).2
  · rw [hactive]
    exact inv.active_nodup.erase id
  · rw [hkeys]
    exact inv.keys_nodup

theorem engineInv_finish_err {α : Type} (s : EngineState α) (id : String) (emsg : String)
    (now : Int) (inv : EngineInv s) (hid : id ∈ s.active) :
    EngineInv (engine_finish_err s id emsg now) := by
  obtain ⟨job, hjob, hrs⟩ := inv.active_running id hid
  have hqueue : (engine_finish_err s id emsg now).queue = s.queue := by
    show (update_job_status (set_job_error s.mgr id emsg) id JobStatus.FAILED now).queue
      = s.queue
    rw [update_job_status_queue]
    exact set_job_error_queue s.mgr id emsg
  have hactive : (engine_finish_err s id emsg now).active = s.active.erase id := rfl
  have hne : ∀ q, id ≠ q →
      dlookup (engine_finish_err s id emsg now).jobs q = dlookup s.jobs q := by
    intro q h
    show dlookup
      (update_job_status (set_job_error s.mgr id emsg) id JobStatus.FAILED now).jobs q = _
    rw [update_job_status_lookup_ne _ id q _ now h]
    exact set_job_error_lookup_ne s.mgr id q emsg h
  have hkeys : (engine_finish_err s id emsg now).jobs.map Prod.fst = s.jobs.map Prod.fst := by
    show (update_job_status (set_job_error s.mgr id emsg) id JobStatus.FAILED
      now).jobs.map Prod.fst = _
    rw [update_job_status_keys]
    exact set_job_error_keys s.mgr id emsg
  refine ⟨?_, ?_, ?_, ?_, ?_, ?_⟩
  · intro q hq
    rw [hqueue] at hq
    have hqid : id ≠ q := fun e => inv.active_not_queued id hid (e ▸ hq)
    obtain ⟨j, hlj, hps⟩ := inv.queue_pending q hq
    exact ⟨j, by rw [hne q hqid]; exact hlj, hps⟩
  · rw [hqueue]
    exact inv.queue_nodup
  · intro a ha
    rw [hactive] at ha
    obtain ⟨hane, hamem⟩ := (inv.active_nodup.mem_erase_iff).mp ha
    obtain ⟨j, hlj, hrs2⟩ := inv.active_running a hamem
    exact ⟨j, by rw [hne a (Ne.symm hane)]; exact hlj, hrs2⟩
  · intro a ha
    rw [hactive] at ha
    rw [hqueue]
    exact inv.active_not_queued a ((inv.active_nodup.mem_erase_iff).mp ha).2
  · rw [hactive]
    exact inv.active_nodup.erase id
  · rw [hkeys]
    exact inv.keys_nodup

theorem engineInv_cleanup {α : Type} (s : EngineState α) (retention_seconds now : Int)
    (inv : EngineInv s) :
    EngineInv (engine_cleanup s retention_seconds now) := by
  have hjobs : (engine_cleanup s retention_seconds now).jobs
      = s.jobs.filter (fun p => ! cleanupRemoves (now - retention_seconds) p.2) := by
    show (cleanup_old_jobs s.mgr retention_seconds now).1.jobs = _
    exact cleanup_old_jobs_jobs s.mgr retention_seconds now inv.keys_nodup
  have hqueue : (engine_cleanup s retention_seconds now).queue = s.queue := rfl
  have hactive : (engine_cleanup s retention_seconds now).active = s.active := rfl
  refine ⟨?_, ?_, ?_, ?_, ?_, ?_⟩
  · intro q hq
    rw [hqueue] at hq
    obtain ⟨j, hlj, hps⟩ := inv.queue_pending q hq
    refine ⟨j, ?_, hps⟩
    rw [hjobs]
    apply dlookup_filter_of_pos _ _ _ _ hlj
    have hrem : cleanupRemoves (now - retention_seconds) j = false := by
      refine cleanupRemoves_false_of_nonterminal _ j ?_ ?_
      · rw [hps]
        exact fun e => JobStatus.noConfusion e
      · rw [hps]
        exact fun e => JobStatus.noConfusion e
    simp [hrem]
  · rw [hqueue]
    exact inv.queue_nodup
  · intro a ha
    rw [hactive] at ha
    obtain ⟨j, hlj, hrs⟩ := inv.active_running a ha
    refine ⟨j, ?_, hrs⟩
    rw [hjobs]
    apply dlookup_filter_of_pos _ _ _ _ hlj
    have hrem : cleanupRemoves (now - retention_seconds) j = false := by
      refine cleanupRemoves_false_of_nonterminal _ j ?_ ?_
      · rw [hrs]
        exact fun e => JobStatus.noConfusion e
      · rw [hrs]
        exact fun e => JobStatus.noConfusion e
    simp [hrem]
  · intro a ha
    rw [hactive] at ha
    rw [hqueue]
    exact inv.active_not_queued a ha
  · rw [hactive]
    exact inv.active_nodup
  · rw [hjobs]
    exact inv.keys_nodup.sublist
      (List.Sublist.map Prod.fst (List.filter_sublist s.jobs))

theorem engineInv_step {α : Type} {s s' : EngineState α} (inv : EngineInv s)
    (st : EngineStep s s') : EngineInv s' := by
  cases st with
  | submit jt p id now hfresh => exact engineInv_submit s jt p id now inv hfresh
  | dequeue_found id rest now hq hj => exact engineInv_dequeue_found s id rest now inv hq hj
  | dequeue_missing id rest hq hj => exact engineInv_dequeue_missing s id rest inv hq
  | report id d now hid => exact engineInv_report s id d now inv hid
  | finish_ok id v now hid => exact engineInv_finish_ok s id v now inv hid
  | finish_err id emsg now hid => exact engineInv_finish_err s id emsg now inv hid
  | cleanup r now => exact engineInv_cleanup s r now inv

theorem engineInv_reachable {α : Type} {s : EngineState α} (h : EngineReachable s) :
    EngineInv s := by
  induction h with
  | init =>
    exact ⟨fun id hm => absurd hm (List.not_mem_nil id), List.nodup_nil,
      fun id hm => absurd hm (List.not_mem_nil id),
      fun id hm => absurd hm (List.not_mem_nil id), List.nodup_nil, List.nodup_nil⟩
  | step hr hst ih => exact engineInv_step ih hst

/-! ## Lemma layer: the worker's execution protocol -/

theorem get_job_eq {α : Type} (s : JobManagerState α) (job_id : String) :
    get_job s job_id = dlookup s.jobs job_id := rfl

theorem foldl_add_intermediate_isSome {α : Type} (reports : List α) (s : JobManagerState α)
    (job_id : String) (now : Int) (h : (dlookup s.jobs job_id).isSome) :
    (dlookup ((reports.foldl (fun acc d => JobContext_add_result job_id acc d now)
      s)).jobs job_id).isSome := by
  induction reports generalizing s with
  | nil => exact h
  | cons r rs ih =>
    simp only [List.foldl_cons]
    apply ih
    obtain ⟨j, hj⟩ := Option.isSome_iff_exists.mp h
    show (dlookup (add_intermediate_result s job_id r now).jobs job_id).isSome
    rw [add_intermediate_result_lookup_self s job_id r now j hj]
    rfl

theorem process_job_eq_ok {α : Type} (handlers : List (String × HandlerFn α))
    (s : JobManagerState α) (job_id : String) (now : Int) (job : Job α)
    (handler : HandlerFn α) (reports : List α) (v : α)
    (h : dlookup s.jobs job_id = some job) (hh : dlookup handlers job.type = some handler)
    (hr : handler job.payload = (reports, Except.ok v)) :
    process_job handlers s job_id now
      = update_job_status
          (set_job_result
            (reports.foldl (fun acc d => JobContext_add_result job_id acc d now)
              (update_job_status s job_id JobStatus.RUNNING now)) job_id v)
          job_id JobStatus.COMPLETED now := by
  unfold process_job
  rw [h]
  simp only [hh, hr]

theorem process_job_eq_err {α : Type} (handlers : List (String × HandlerFn α))
    (s : JobManagerState α) (job_id : String) (now : Int) (job : Job α)
    (handler : HandlerFn α) (reports : List α) (e : PyExcInfo)
    (h : dlookup s.jobs job_id = some job) (hh : dlookup handlers job.type = some handler)
    (hr : handler job.payload = (reports, Except.error e)) :
    process_job handlers s job_id now
      = update_job_status
          (set_job_error
            (reports.foldl (fun acc d => JobContext_add_result job_id acc d now)
              (update_job_status s job_id JobStatus.RUNNING now)) job_id
            (e.excName ++ ": " ++ e.msg))
          job_id JobStatus.FAILED now := by
  unfold process_job
  rw [h]
  simp only [hh, hr]

theorem process_job_eq_nohandler {α : Type} (handlers : List (String × HandlerFn α))
    (s : JobManagerState α) (job_id : String) (now : Int) (job : Job α)
    (h : dlookup s.jobs job_id = some job) (hh : dlookup handlers job.type = none) :
    process_job handlers s job_id now
      = update_job_status
          (set_job_error (update_job_status s job_id JobStatus.RUNNING now) job_id
            ("ValueError" ++ ": " ++ ("No handler registered for job type: " ++ job.type)))
          job_id JobStatus.FAILED now := by
  unfold process_job
  rw [h]
  simp only [hh]

theorem process_job_ok_post {α : Type} (handlers : List (String × HandlerFn α))
    (s : JobManagerState α) (job_id : String) (now : Int) (job : Job α)
    (handler : HandlerFn α) (reports : List α) (v : α)
    (h : dlookup s.jobs job_id = some job) (hh : dlookup handlers job.type = some handler)
    (hr : handler job.payload = (reports, Except.ok v)) :
    ∃ j', dlookup (process_job handlers s job_id now).jobs job_id = some j'
      ∧ j'.status = JobStatus.COMPLETED ∧ j'.final_result = some v := by
  have h1 : dlookup (update_job_status s job_id JobStatus.RUNNING now).jobs job_id
      = some (apply_status job JobStatus.RUNNING now) :=
    update_job_status_lookup_self s job_id _ now job h
  have h2 := foldl_add_intermediate_isSome reports
    (update_job_status s job_id JobStatus.RUNNING now) job_id now (by rw [h1]; rfl)
  obtain ⟨j2, hj2⟩ := Option.isSome_iff_exists.mp h2
  have h3 := set_job_result_lookup_self _ job_id v j2 hj2
  have h4 := update_job_status_lookup_self _ job_id JobStatus.COMPLETED now _ h3
  rw [process_job_eq_ok handlers s job_id now job handler reports v h hh hr]
  refine ⟨_, h4, apply_status_status _ _ _, ?_⟩
  rw [apply_status_final_result]

theorem process_job_err_post {α : Type} (handlers : List (String × HandlerFn α))
    (s : JobManagerState α) (job_id : String) (now : Int) (job : Job α)
    (handler : HandlerFn α) (reports : List α) (e : PyExcInfo)
    (h : dlookup s.jobs job_id = some job) (hh : dlookup handlers job.type = some handler)
    (hr : handler job.payload = (reports, Except.error e)) :
    ∃ j', dlookup (process_job handlers s job_id now).jobs job_id = some j'
      ∧ j'.status = JobStatus.FAILED ∧ j'.error = some (e.excName ++ ": " ++ e.msg) := by
  have h1 : dlookup (update_job_status s job_id JobStatus.RUNNING now).jobs job_id
      = some (apply_status job JobStatus.RUNNING now) :=
    update_job_status_lookup_self s job_id _ now job h
  have h2 := foldl_add_intermediate_isSome reports
    (update_job_status s job_id JobStatus.RUNNING now) job_id now (by rw [h1]; rfl)
  obtain ⟨j2, hj2⟩ := Option.isSome_iff_exists.mp h2
  have h3 := set_job_error_lookup_self _ job_id (e.excName ++ ": " ++ e.msg) j2 hj2
  have h4 := update_job_status_lookup_self _ job_id JobStatus.FAILED now _ h3
  rw [process_job_eq_err handlers s job_id now job handler reports e h hh hr]
  refine ⟨_, h4, apply_status_status _ _ _, ?_⟩
  rw [apply_status_error]

theorem process_job_nohandler_post {α : Type} (handlers : List (String × HandlerFn α))
    (s : JobManagerState α) (job_id : String) (now : Int) (job : Job α)
    (h : dlookup s.jobs job_id = some job) (hh : dlookup handlers job.type = none) :
    ∃ j', dlookup (process_job handlers s job_id now).jobs job_id = some j'
      ∧ j'.status = JobStatus.FAILED
      ∧ j'.error = some ("ValueError" ++ ": "
          ++ ("No handler registered for job type: " ++ job.type)) := by
  have h1 : dlookup (update_job_status s job_id JobStatus.RUNNING now).jobs job_id
      = some (apply_status job JobStatus.RUNNING now) :=
    update_job_status_lookup_self s job_id _ now job h
  have h3 := set_job_error_lookup_self _ job_id
    ("ValueError" ++ ": " ++ ("No handler registered for job type: " ++ job.type))
    _ h1
  have h4 := update_job_status_lookup_self _ job_id JobStatus.FAILED now _ h3
  rw [process_job_eq_nohandler handlers s job_id now job h hh]
  refine ⟨_, h4, apply_status_status _ _ _, ?_⟩
  rw [apply_status_error]

theorem submit_job_idem_replay {α : Type} (s : IdemManagerState α) (jt : String) (p : α)
    (k fid : String) (now : Int) (jid : String)
    (hk : dlookup s.idempotency k = some jid) :
    submit_job_idem s jt p (some k) fid now = (s, jid, false) := by
  simp only [submit_job_idem, hk]

theorem submit_job_idem_many_replay {α : Type} (s : IdemManagerState α) (k jid : String)
    (hk : dlookup s.idempotency k = some jid)
    (calls : List (String × α × String × Int)) :
    submit_job_idem_many s k calls = (s, calls.map (fun _ => (jid, false))) := by
  induction calls with
  | nil => rfl
  | cons c rest ih =>
    obtain ⟨jt, p, fid, now⟩ := c
    simp only [submit_job_idem_many, submit_job_idem_replay s jt p k fid now jid hk, ih,
      List.map_cons]

theorem dinsert_length_of_not_mem {β : Type} (m : List (String × β)) (k : String) (v : β)
    (h : k ∉ m.map Prod.fst) : (dinsert m k v).length = m.length + 1 := by
  have hkeys := keys_dinsert_of_not_mem m k v h
  have h2 : ((dinsert m k v).map Prod.fst).length = (m.map Prod.fst ++ [k]).length := by
    rw [hkeys]
  simpa using h2

/-- C1: for every pair of submissions sharing one idempotency key, the
second (and every later) call of `submit` returns the job id mapped by the
first with `isNew = false` and performs no further mutation: the state is
unchanged (no new Job, no enqueue), only the first call is marked new, and
the queue grows by exactly one for the whole key group. -/
theorem C1_idempotent_submission {α : Type} (s : IdemManagerState α) (k jt : String)
    (p : α) (fid : String) (now : Int) (hk : dlookup s.idempotency k = none)
    (hfresh : dlookup s.jobs fid = none) :
    (submit_job_idem s jt p (some k) fid now).2.2 = true
    ∧ (submit_job_idem s jt p (some k) fid now).1.queue.length = s.queue.length + 1
    ∧ (submit_job_idem s jt p (some k) fid now).1.jobs.length = s.jobs.length + 1
    ∧ ∀ calls : List (String × α × String × Int),
        submit_job_idem_many (submit_job_idem s jt p (some k) fid now).1 k calls
          = ((submit_job_idem s jt p (some k) fid now).1,
             calls.map (fun _ => ((submit_job_idem s jt p (some k) fid now).2.1, false))) := by
  have hfirst : submit_job_idem s jt p (some k) fid now
      = ({ jobs := dinsert s.jobs fid (Job.init fid jt p now)
           queue := s.queue ++ [fid]
           idempotency := dinsert s.idempotency k fid }, fid, true) := by
    simp only [submit_job_idem, hk]
  refine ⟨?_, ?_, ?_, ?_⟩
  · rw [hfirst]
  · rw [hfirst]
    simp
  · rw [hfirst]
    exact dinsert_length_of_not_mem s.jobs fid _ ((dlookup_eq_none_iff _ _).mp hfresh)
  · intro calls
    rw [hfirst]
    exact submit_job_idem_many_replay _ k fid (dlookup_dinsert_self _ _ _) calls

theorem C1_witness :
    submit_job_idem_many (submit_job_idem c1_empty "echo" 5 (some "k1") "a" 0).1 "k1"
        [("echo", 5, "b", 1), ("other", 6, "c", 2)]
      = ((submit_job_idem c1_empty "echo" 5 (some "k1") "a" 0).1,
         [((submit_job_idem c1_empty "echo" 5 (some "k1") "a" 0).2.1, false),
          ((submit_job_idem c1_empty "echo" 5 (some "k1") "a" 0).2.1, false)]) :=
  (C1_idempotent_submission c1_empty "k1" "echo" 5 "a" 0 rfl rfl).2.2.2
    [("echo", 5, "b", 1), ("other", 6, "c", 2)]

/-- C7 counterexample: re-registering an already-registered type does not
fail — the body `d[job_type] = func` has no failure path — and the existing
entry is replaced: registering handler `1` and then handler `2` under the
same type yields a registry mapping the type to `2`. -/
theorem C7_counterexample :
    register_handler (register_handler ([] : List (String × Nat)) "t" 1) "t" 2
      = [("t", 2)] := by decide

/-- C7 amended: a second `register(type, handler)` call succeeds and
silently replaces the existing entry — last write wins — and registrations
under one type never disturb other types' entries; no `DuplicateHandler`
condition exists in the code. -/
theorem C7_amended_last_write_wins {H : Type} (d : List (String × H)) (t : String)
    (f g : H) :
    dlookup (register_handler (register_handler d t f) t g) t = some g
    ∧ ∀ t', t ≠ t' → dlookup (register_handler d t f) t' = dlookup d t' := by
  constructor
  · show dlookup (dinsert (dinsert d t f) t g) t = some g
    exact dlookup_dinsert_self _ _ _
  · intro t' h
    exact dlookup_dinsert_ne d t t' f h

theorem C7_witness :
    dlookup (register_handler (register_handler ([] : List (String × Nat)) "t" 1) "t" 2) "t"
      = some 2
    ∧ dlookup (register_handler ([] : List (String × Nat)) "t" 1) "u" = none := by
  constructor
  · exact (C7_amended_last_write_wins ([] : List (String × Nat)) "t" 1 2).1
  · have h := (C7_amended_last_write_wins ([] : List (String × Nat)) "t" 1 2).2 "u"
      (by decide)
    rw [h]
    rfl

/-- C2: the claim fails on the code, and this theorem evaluates the code at
the failing input. After startup registration (importing `app.handlers`
applies the decorator the handler modules imported from `app.jobs`, i.e.
`app.jobs.handlers.register_handler`), the type `"echo"` is retrievable
from `app.jobs.handlers.HANDLERS`, yet `can_handle` — which the submission
endpoint imports from `app.jobs.registry` and which consults that module's
separate `_registry` dict — returns `false`, so the endpoint rejects the
submission of a registered type with HTTP 400 and never reaches `submit`. -/
theorem C2_registry_split {H α : Type} (dp echo lr : H) (s : IdemManagerState α)
    (payload : α) (header_key body_key : Option String) (fid : String) (now : Int) :
    handlers_get_handler (import_app_handlers HandlerModulesState.initial dp echo lr) "echo"
        = some echo
    ∧ can_handle (import_app_handlers HandlerModulesState.initial dp echo lr) "echo" = false
    ∧ endpoint_submit_job (import_app_handlers HandlerModulesState.initial dp echo lr) s
        "echo" payload header_key body_key fid now
      = (Except.error { status_code := 400,
                        detail := "Unknown job type: " ++ "echo" ++ "." }, s) := by
  have hch : can_handle (import_app_handlers HandlerModulesState.initial dp echo lr) "echo"
      = false := rfl
  refine ⟨?_, hch, ?_⟩
  · show dlookup
      (dinsert (dinsert (dinsert [] "data_processing" dp) "echo" echo) "long_running" lr)
      "echo" = some echo
    rfl
  · simp [endpoint_submit_job, hch]

/-- C8: a submission whose type has no registered handler (`can_handle`
false) is rejected with HTTP 400 before any state is created: the manager
state is returned unchanged — no Job stored, nothing enqueued, job count and
queue depth unchanged — and no job id is produced (the outcome is an error,
not an id). -/
theorem C8_unknown_type_rejected {H α : Type} (reg : HandlerModulesState H)
    (s : IdemManagerState α) (jt : String) (payload : α)
    (header_key body_key : Option String) (fid : String) (now : Int)
    (h : can_handle reg jt = false) :
    endpoint_submit_job reg s jt payload header_key body_key fid now
      = (Except.error { status_code := 400, detail := "Unknown job type: " ++ jt ++ "." }, s)
    ∧ (endpoint_submit_job reg s jt payload header_key body_key fid now).2.jobs.length
        = s.jobs.length
    ∧ (endpoint_submit_job reg s jt payload header_key body_key fid now).2.queue.length
        = s.queue.length := by
  have he : endpoint_submit_job reg s jt payload header_key body_key fid now
      = (Except.error { status_code := 400,
                        detail := "Unknown job type: " ++ jt ++ "." }, s) := by
    simp [endpoint_submit_job, h]
  exact ⟨he, by rw [he], by rw [he]⟩

theorem C8_witness :
    endpoint_submit_job (HandlerModulesState.initial : HandlerModulesState Nat)
      ({ jobs := [], queue := [], idempotency := [] } : IdemManagerState Nat)
      "nope" 0 none none "x" 0
      = (Except.error { status_code := 400, detail := "Unknown job type: " ++ "nope" ++ "." },
         { jobs := [], queue := [], idempotency := [] }) :=
  (C8_unknown_type_rejected HandlerModulesState.initial
    ({ jobs := [], queue := [], idempotency := [] } : IdemManagerState Nat)
    "nope" 0 none none "x" 0 rfl).1

/-- C9: one `JobContext.add_result` call on a stored job appends exactly one
`(timestamp, data)` pair at the end of that job's `intermediate_results`,
preserving the prior entries and order; every other field of the job is
unchanged (the record differs only in `intermediate_results`), every other
job's binding is untouched, and the queue is untouched. -/
theorem C9_add_result_appends_one {α : Type} (s : JobManagerState α) (ctx_job_id : String)
    (d : α) (now : Int) (job : Job α) (h : dlookup s.jobs ctx_job_id = some job) :
    get_job (JobContext_add_result ctx_job_id s d now) ctx_job_id
      = some { job with intermediate_results :=
          job.intermediate_results ++ [{ timestamp := now, data := d }] }
    ∧ (∀ q, q ≠ ctx_job_id →
        get_job (JobContext_add_result ctx_job_id s d now) q = get_job s q)
    ∧ (JobContext_add_result ctx_job_id s d now).queue = s.queue := by
  refine ⟨?_, ?_, ?_⟩
  · rw [get_job_eq]
    exact add_intermediate_result_lookup_self s ctx_job_id d now job h
  · intro q hq
    rw [get_job_eq, get_job_eq]
    exact add_intermediate_result_lookup_ne s ctx_job_id q d now (Ne.symm hq)
  · exact add_intermediate_result_queue s ctx_job_id d now

theorem C9_witness :
    get_job (JobContext_add_result "j" wit_state 9 4) "j"
      = some { wit_job with intermediate_results :=
          wit_job.intermediate_results ++ [{ timestamp := 4, data := 9 }] } :=
  (C9_add_result_appends_one wit_state "j" 9 4 wit_job rfl).1

/-- C3 counterexample: `update_job_status` has no monotonicity guard — on a
job whose stored status is `COMPLETED`, a further `setStatus(PENDING)` call
is applied and the stored status regresses to `PENDING`, refuting "once
Completed or Failed, no further transition is applied" for arbitrary call
sequences. -/
theorem C3_counterexample :
    (get_job c3_state "j").map Job.status = some JobStatus.COMPLETED
    ∧ (get_job (update_job_status c3_state "j" JobStatus.PENDING 9) "j").map Job.status
        = some JobStatus.PENDING := by
  constructor
  · rfl
  · rfl

/-- C3 amended: `update_job_status` applies whatever status is passed — the
stored status always becomes exactly the argument, with no guard — so
monotonicity holds not for arbitrary call sequences but for the sequence
the engine actually issues: `process_job` on a stored job first sets
`RUNNING` and then exactly one terminal status (`COMPLETED` or `FAILED`),
so a job driven by the worker visits Pending, then Running, then one
terminal state, never regressing. -/
theorem C3_amended_status_trace {α : Type} (handlers : List (String × HandlerFn α))
    (s : JobManagerState α) (job_id : String) (now : Int) (job : Job α)
    (h : dlookup s.jobs job_id = some job) :
    (∀ st nowu, (get_job (update_job_status s job_id st nowu) job_id).map Job.status
        = some st)
    ∧ (get_job (update_job_status s job_id JobStatus.RUNNING now) job_id).map Job.status
        = some JobStatus.RUNNING
    ∧ ∃ st, (st = JobStatus.COMPLETED ∨ st = JobStatus.FAILED)
        ∧ (get_job (process_job handlers s job_id now) job_id).map Job.status = some st := by
  refine ⟨?_, ?_, ?_⟩
  · intro st nowu
    rw [get_job_eq, update_job_status_lookup_self s job_id st nowu job h]
    simp [apply_status_status]
  · rw [get_job_eq, update_job_status_lookup_self s job_id _ now job h]
    simp [apply_status_status]
  · cases hh : dlookup handlers job.type with
    | none =>
      obtain ⟨j', hj', hst, _⟩ := process_job_nohandler_post handlers s job_id now job h hh
      refine ⟨JobStatus.FAILED, Or.inr rfl, ?_⟩
      rw [get_job_eq, hj']
      simp [hst]
    | some handler =>
      rcases hout : handler job.payload with ⟨reports, outcome⟩
      cases outcome with
      | ok v =>
        obtain ⟨j', hj', hst, _⟩ :=
          process_job_ok_post handlers s job_id now job handler reports v h hh hout
        refine ⟨JobStatus.COMPLETED, Or.inl rfl, ?_⟩
        rw [get_job_eq, hj']
        simp [hst]
      | error e =>
        obtain ⟨j', hj', hst, _⟩ :=
          process_job_err_post handlers s job_id now job handler reports e h hh hout
        refine ⟨JobStatus.FAILED, Or.inr rfl, ?_⟩
        rw [get_job_eq, hj']
        simp [hst]

theorem C3_witness :
    (get_job (update_job_status wit_state "j" JobStatus.RUNNING 5) "j").map Job.status
      = some JobStatus.RUNNING :=
  (C3_amended_status_trace ([] : List (String × HandlerFn Nat)) wit_state "j" 5 wit_job
    rfl).2.1

/-- C4 counterexample: `completed_at` is not write-once — the terminal
branch of `update_job_status` stamps it unconditionally, so a second
`setStatus(COMPLETED)` call at time 9 overwrites the previously stored
`completed_at = 2`. -/
theorem C4_counterexample :
    (get_job c4_state "j").map Job.completed_at = some (some 2)
    ∧ (get_job (update_job_status c4_state "j" JobStatus.COMPLETED 9) "j").map
        Job.completed_at = some (some 9) := by
  constructor
  · rfl
  · rfl

/-- C4 amended: `started_at` is written at most once — the `RUNNING` branch
only stamps it when unset, and no other branch touches it, so once set it
is never overwritten by any later `update_job_status` call. `completed_at`,
by contrast, is stamped anew on every terminal call (and left unchanged by
non-terminal calls), so it is written once only because the worker issues
exactly one terminal transition per job. -/
theorem C4_amended_timestamps {α : Type} (s : JobManagerState α) (job_id : String)
    (st : JobStatus) (now : Int) (job : Job α) (h : dlookup s.jobs job_id = some job) :
    (∀ t, job.started_at = some t →
        (get_job (update_job_status s job_id st now) job_id).map Job.started_at
          = some (some t))
    ∧ ((st = JobStatus.COMPLETED ∨ st = JobStatus.FAILED) →
        (get_job (update_job_status s job_id st now) job_id).map Job.completed_at
          = some (some now))
    ∧ (¬(st = JobStatus.COMPLETED ∨ st = JobStatus.FAILED) →
        (get_job (update_job_status s job_id st now) job_id).map Job.completed_at
          = some job.completed_at) := by
  refine ⟨?_, ?_, ?_⟩
  · intro t ht
    rw [get_job_eq, update_job_status_lookup_self s job_id st now job h]
    simp [apply_status_started_at_of_set job st now t ht]
  · intro hterm
    rw [get_job_eq, update_job_status_lookup_self s job_id st now job h]
    simp [apply_status_completed_at_terminal job st now hterm]
  · intro hnt
    rw [get_job_eq, update_job_status_lookup_self s job_id st now job h]
    simp [apply_status_completed_at_nonterminal job st now hnt]

theorem C4_witness :
    (get_job (update_job_status c4_state "j" JobStatus.RUNNING 7) "j").map Job.started_at
      = some (some 1) := by
  have h := C4_amended_timestamps c4_state "j" JobStatus.RUNNING 7 c4_job rfl
  exact h.1 1 rfl

/-- C5: on a store with unique keys (every Python dict), `cleanup_old_jobs`
removes exactly the Jobs selected by its loop condition and returns their
count: the surviving store is the original filtered by not-selected (so all
other Jobs remain, unchanged and in order), the count is the number of
selected entries, the queue is untouched, and selection holds precisely for
Jobs whose status is `COMPLETED` or `FAILED` and whose `completed_at` is
set and strictly older than `now - retention`; a Job with unset
`completed_at`, non-terminal status, or `completed_at` within the retention
window is never selected. -/
theorem C5_cleanup_exactness {α : Type} (s : JobManagerState α)
    (retention_seconds now : Int) (hnd : (s.jobs.map Prod.fst).Nodup) :
    (cleanup_old_jobs s retention_seconds now).1.jobs
        = s.jobs.filter (fun p => ! cleanupRemoves (now - retention_seconds) p.2)
    ∧ (cleanup_old_jobs s retention_seconds now).2
        = (s.jobs.filter (fun p => cleanupRemoves (now - retention_seconds) p.2)).length
    ∧ (cleanup_old_jobs s retention_seconds now).1.queue = s.queue
    ∧ ∀ j : Job α, cleanupRemoves (now - retention_seconds) j = true ↔
        ((j.status = JobStatus.COMPLETED ∨ j.status = JobStatus.FAILED)
          ∧ ∃ t, j.completed_at = some t ∧ t < now - retention_seconds) := by
  refine ⟨cleanup_old_jobs_jobs s retention_seconds now hnd,
    cleanup_old_jobs_count s retention_seconds now,
    cleanup_old_jobs_queue s retention_seconds now, ?_⟩
  intro j
  cases hst : j.status <;> cases hca : j.completed_at <;>
    simp [cleanupRemoves, hst, hca]

theorem C5_witness :
    (cleanup_old_jobs c5_state 10 100).1.jobs = [("b", c5_live_job)]
    ∧ (cleanup_old_jobs c5_state 10 100).2 = 1 := by
  have h := C5_cleanup_exactness c5_state 10 100 (by decide)
  constructor
  · rw [h.1]
    decide
  · rw [h.2.1]
    decide

/-- C6: when a worker processes a stored job whose type has a registered
handler, a handler that returns normally yields a final state where the
job's `final_result` is the returned value and its status is `COMPLETED`,
and a handler that raises yields a state where the job's `error` is the
captured `f"{type(e).__name__}: {str(e)}"` description and its status is
`FAILED`; in both cases `process_job` returns a state (its embedding is a
total function — no exception escapes) and the worker loop proceeds to the
next dequeue iteration. -/
theorem C6_process_job_outcomes {α : Type} (handlers : List (String × HandlerFn α))
    (s : JobManagerState α) (job_id : String) (now : Int) (job : Job α)
    (handler : HandlerFn α) (h : dlookup s.jobs job_id = some job)
    (hh : dlookup handlers job.type = some handler) :
    (∀ reports v, handler job.payload = (reports, Except.ok v) →
        ∃ j', get_job (process_job handlers s job_id now) job_id = some j'
          ∧ j'.final_result = some v ∧ j'.status = JobStatus.COMPLETED)
    ∧ (∀ reports e, handler job.payload = (reports, Except.error e) →
        ∃ j', get_job (process_job handlers s job_id now) job_id = some j'
          ∧ j'.error = some (e.excName ++ ": " ++ e.msg) ∧ j'.status = JobStatus.FAILED)
    ∧ (∀ nows : List Int, worker_run handlers s (now :: nows)
        = worker_run handlers (worker_step handlers s now) nows) := by
  refine ⟨?_, ?_, ?_⟩
  · intro reports v hr
    obtain ⟨j', hj', hst, hres⟩ :=
      process_job_ok_post handlers s job_id now job handler reports v h hh hr
    exact ⟨j', by rw [get_job_eq]; exact hj', hres, hst⟩
  · intro reports e hr
    obtain ⟨j', hj', hst, herr⟩ :=
      process_job_err_post handlers s job_id now job handler reports e h hh hr
    exact ⟨j', by rw [get_job_eq]; exact hj', herr, hst⟩
  · intro nows
    rfl

theorem C6_witness :
    ∃ j', get_job (process_job c6_handlers wit_state "j" 7) "j" = some j'
      ∧ j'.final_result = some 4 ∧ j'.status = JobStatus.COMPLETED :=
  (C6_process_job_outcomes c6_handlers wit_state "j" 7 wit_job c6_handler rfl rfl).1 [3] 4
    rfl

/-- C10: in every reachable state of the engine, every job identifier
present in the submission queue is bound in the job store and the bound
job's status is `PENDING`: submit stores the Pending job before enqueuing
its freshly generated id, a worker marks a job `RUNNING` only after
dequeuing it, finished jobs' ids are no longer queued, and the cleanup
sweep removes only terminal jobs — so a dequeuing worker always finds its
job in the store. -/
theorem C10_queued_ids_stored_pending {α : Type} (s : EngineState α)
    (h : EngineReachable s) :
    ∀ id ∈ s.queue, ∃ j, dlookup s.jobs id = some j ∧ j.status = JobStatus.PENDING :=
  (engineInv_reachable h).queue_pending

theorem C10_witness :
    ∃ j, dlookup c10_state.jobs "a" = some j ∧ j.status = JobStatus.PENDING := by
  have hreach : EngineReachable c10_state :=
    EngineReachable.step EngineReachable.init
      (EngineStep.submit { jobs := [], queue := [], active := [] } "echo" 0 "a" 0 rfl)
  exact C10_queued_ids_stored_pending c10_state hreach "a" (by decide)
